import Mathlib

/-!
Verification of the evolutionary parameter-search engine of the kickpad
repository (main.go).  The Go source is shallowly embedded: float64 values are
modelled as rationals, the IEEE special values produced by the program
(positive infinity from explicit math.Inf(1) returns, NaN from the 0.0/0.0
division in compareWaveforms) are modelled by the EF type, and every call to
the global random generator is modelled as a query to an explicit decision
oracle passed as an argument.  External collaborators that are not part of
this repository (synth.Settings.Generate, the FFT of the go-dsp library
composed with cmplx.Abs) are modelled as oracle function parameters; every
line of control flow and arithmetic that lives in main.go is translated
directly.
-/

namespace Kickpad

/-- Parameter genome, mirroring the fields of synth.Settings that main.go
reads and writes.  Continuous genes are rationals, the waveform type and the
carried context fields are naturals. -/
structure Settings where
  Attack : ℚ
  Decay : ℚ
  Sustain : ℚ
  Release : ℚ
  Drive : ℚ
  FilterCutoff : ℚ
  Sweep : ℚ
  PitchDecay : ℚ
  NoiseAmount : ℚ
  WaveformType : ℕ
  SampleRate : ℕ
  BitDepth : ℕ
  deriving DecidableEq

/-- Default genome used to model indexing defaults (Go indexing in the source
is always in range; the default is never actually selected). -/
def defaultSettings : Settings :=
  ⟨0, 0, 0, 0, 0, 0, 0, 0, 0, 0, 0, 0⟩

/- Constants from the const block of main.go. -/

def maxGenerationsC : ℕ := 1000
def maxStagnationC : ℕ := 10
def populationSizeC : ℕ := 100
def tournamentSizeC : ℕ := 5
def eliteCountC : ℕ := 10
def mutationRate : ℚ := 0.05

def minAttack : ℚ := 0.05
def maxAttack : ℚ := 0.5
def minDecay : ℚ := 0.05
def maxDecay : ℚ := 0.5
def minSustain : ℚ := 0.1
def maxSustain : ℚ := 1.0
def minRelease : ℚ := 0.05
def maxRelease : ℚ := 1.0
def minDrive : ℚ := 0.0
def maxDrive : ℚ := 1.0
def minFilterCutoff : ℚ := 500
def maxFilterCutoff : ℚ := 10000
def minSweep : ℚ := 0.1
def maxSweep : ℚ := 2.0
def minPitchDecay : ℚ := 0.1
def maxPitchDecay : ℚ := 1.5
def minNoiseAmount : ℚ := 0.0
def maxNoiseAmount : ℚ := 1.0
def minSampleDuration : ℚ := 0.1
def maxSampleDuration : ℚ := 2.0

/-- Extended float value: the fitness computations of main.go produce,
besides ordinary finite values, positive infinity (explicit math.Inf(1)
returns) and NaN (the division 0.0/0.0 that compareWaveforms performs when
the overlap length is zero).  Negative infinity never arises because every
special-value path of the program starts from math.Inf(1) or from a division
of a non-negative sum. -/
inductive EF where
  | nan : EF
  | inf : EF
  | fin : ℚ → EF
  deriving DecidableEq

/-- IEEE comparison x less-than y as the Go operator yields it on the values
modelled by EF: any comparison involving NaN is false, and positive infinity
is not less than anything. -/
def EF.flt : EF → EF → Bool
  | .fin a, .fin b => a < b
  | .fin _, .inf => true
  | _, _ => false

/-- IEEE addition restricted to the values that the program can produce
(NaN absorbs, then positive infinity absorbs). -/
def EF.add : EF → EF → EF
  | .nan, _ => .nan
  | _, .nan => .nan
  | .inf, _ => .inf
  | _, .inf => .inf
  | .fin a, .fin b => .fin (a + b)

/-- Multiplication of an extended float by a positive rational constant
(used by the source only with the constant 0.5, so the zero-constant corner
of IEEE multiplication never arises). -/
def EF.scale (c : ℚ) : EF → EF
  | .nan => .nan
  | .inf => .inf
  | .fin a => .fin (c * a)

/-- IEEE division of a non-negative float x by the float cast of a natural
number n: for n = 0 the source can only reach this with x = 0, giving NaN;
the x positive branch is kept for completeness of the model. -/
def fdivNN (x : ℚ) (n : ℕ) : EF :=
  if n = 0 then (if x = 0 then .nan else .inf) else .fin (x / (n : ℚ))

/-- A sample buffer as main.go sees it: none models a nil Go slice, some l a
non-nil slice with the given samples. -/
def Wave : Type := Option (List ℚ)

instance : DecidableEq Wave := by
  unfold Wave
  infer_instance

/-- Sum of squared differences over the index range [0, m), mirroring the
indexed accumulation loops of compareWaveforms and compareWaveformsFFT. -/
def sumSqDiff (l1 l2 : List ℚ) (m : ℕ) : ℚ :=
  ∑ i ∈ Finset.range m, (l1.getD i 0 - l2.getD i 0) ^ 2

/-- Time-domain comparison, translated from compareWaveforms in main.go: nil
buffers score positive infinity, otherwise the mean squared error over the
overlap length is returned, the final division being the IEEE division that
yields NaN when the overlap length is zero. -/
def compareWaveforms (waveform1 waveform2 : Wave) : EF :=
  match waveform1, waveform2 with
  | none, _ => .inf
  | _, none => .inf
  | some l1, some l2 =>
    let minLength := Nat.min l1.length l2.length
    fdivNN (sumSqDiff l1 l2 minLength) minLength

/-- Least power of two that is at least n, with 1 for n = 0; this is the
value computed by the doubling loop of nextPowerOfTwo in main.go. -/
def nextPowerOfTwo (n : ℕ) : ℕ :=
  if n = 0 then 1 else 2 ^ Nat.clog 2 n

/-- Frequency-domain comparison, translated from compareWaveformsFFT in
main.go.  The composite of fft.FFTReal and cmplx.Abs (both external
libraries) is abstracted as the oracle mag, applied to the zero-padded
buffers of length n; the padding, the length computation and the mean
squared error between the two magnitude spectra are the code of main.go. -/
def compareWaveformsFFT (mag : List ℚ → List ℚ)
    (waveform1 waveform2 : Wave) (sampleRate : ℕ) : EF :=
  match waveform1, waveform2 with
  | none, _ => .inf
  | _, none => .inf
  | some l1, some l2 =>
    let n := nextPowerOfTwo (Nat.min l1.length l2.length)
    let padded1 := l1.take n ++ List.replicate (n - l1.length) 0
    let padded2 := l2.take n ++ List.replicate (n - l2.length) 0
    let mag1 := mag padded1
    let mag2 := mag padded2
    fdivNN (sumSqDiff mag1 mag2 n) n

/-- Fitness evaluation, translated from compareWaveformsSafe in main.go.
The external synthesizer call individual.Generate is abstracted as the
oracle render (none models a returned error); loadedWaveform and the working
sample rate are the global variables of main.go, passed here explicitly. -/
def compareWaveformsSafe (render : Settings → Option Wave)
    (mag : List ℚ → List ℚ) (loadedWaveform : Wave) (sampleRate : ℕ)
    (individual : Settings) : EF :=
  match render individual with
  | none => .inf
  | some generatedWaveform =>
    let timeMSE := compareWaveforms generatedWaveform loadedWaveform
    let freqMSE := compareWaveformsFFT mag generatedWaveform loadedWaveform sampleRate
    let combinedMSE := (EF.scale 0.5 timeMSE).add (EF.scale 0.5 freqMSE)
    let expectedDuration := individual.Attack + individual.Decay + individual.Release
    let withLow :=
      if expectedDuration < minSampleDuration then
        combinedMSE.add (.fin ((minSampleDuration - expectedDuration) * 1000))
      else combinedMSE
    let withHigh :=
      if expectedDuration > maxSampleDuration then
        withLow.add (.fin ((expectedDuration - maxSampleDuration) * 1000))
      else withLow
    withHigh

/-- Clamp helper, translated from clamp in main.go. -/
def clamp (value lo hi : ℚ) : ℚ :=
  if value < lo then lo else if value > hi then hi else value

/-- Decision oracle for one call of mutateSettings: p i models the i-th
rand.Float64() draw compared against the mutation rate, f i models the
rand.Float64() factor draw of the i-th mutated gene, w models the rand.Intn
draw for the waveform type. -/
structure MutDec where
  p : ℕ → ℚ
  f : ℕ → ℚ
  w : ℕ

/-- Mutation operator, translated from mutateSettings in main.go: each gene
is rewritten, with probability given by the mutation rate, to its old value
times a factor in the interval from 0.8 to 1.2, clamped to the declared
bound; the waveform type is redrawn uniformly. -/
def mutateSettings (dec : MutDec) (cfg : Settings) (allWaveforms : Bool) : Settings :=
  let cfg1 := if dec.p 0 < mutationRate then
    { cfg with Attack := clamp (cfg.Attack * (0.8 + dec.f 0 * 0.4)) minAttack maxAttack } else cfg
  let cfg2 := if dec.p 1 < mutationRate then
    { cfg1 with Decay := clamp (cfg1.Decay * (0.8 + dec.f 1 * 0.4)) minDecay maxDecay } else cfg1
  let cfg3 := if dec.p 2 < mutationRate then
    { cfg2 with Sustain := clamp (cfg2.Sustain * (0.8 + dec.f 2 * 0.4)) minSustain maxSustain } else cfg2
  let cfg4 := if dec.p 3 < mutationRate then
    { cfg3 with Release := clamp (cfg3.Release * (0.8 + dec.f 3 * 0.4)) minRelease maxRelease } else cfg3
  let cfg5 := if dec.p 4 < mutationRate then
    { cfg4 with Drive := clamp (cfg4.Drive * (0.8 + dec.f 4 * 0.4)) minDrive maxDrive } else cfg4
  let cfg6 := if dec.p 5 < mutationRate then
    { cfg5 with FilterCutoff := clamp (cfg5.FilterCutoff * (0.8 + dec.f 5 * 0.4)) minFilterCutoff maxFilterCutoff } else cfg5
  let cfg7 := if dec.p 6 < mutationRate then
    { cfg6 with Sweep := clamp (cfg6.Sweep * (0.8 + dec.f 6 * 0.4)) minSweep maxSweep } else cfg6
  let cfg8 := if dec.p 7 < mutationRate then
    { cfg7 with PitchDecay := clamp (cfg7.PitchDecay * (0.8 + dec.f 7 * 0.4)) minPitchDecay maxPitchDecay } else cfg7
  let cfg9 := if dec.p 8 < mutationRate then
    { cfg8 with WaveformType := dec.w % (if allWaveforms then 7 else 2) } else cfg8
  let cfg10 := if dec.p 9 < mutationRate then
    { cfg9 with NoiseAmount := clamp (cfg9.NoiseAmount * (0.8 + dec.f 8 * 0.4)) minNoiseAmount maxNoiseAmount } else cfg9
  cfg10

/-- Crossover operator, translated from singlePointCrossover in main.go: the
children start as copies of the two parents and then, for each of the ten
genes in source order, an independent coin decides whether the gene values
are swapped between the children.  coins i models the i-th rand.Float64()
draw of this call. -/
def singlePointCrossover (coins : ℕ → ℚ) (parent1 parent2 : Settings) :
    Settings × Settings :=
  let cc0 : Settings × Settings := (parent1, parent2)
  let cc1 := if coins 0 < 0.5 then
    ({ cc0.1 with Attack := parent2.Attack }, { cc0.2 with Attack := parent1.Attack }) else cc0
  let cc2 := if coins 1 < 0.5 then
    ({ cc1.1 with Decay := parent2.Decay }, { cc1.2 with Decay := parent1.Decay }) else cc1
  let cc3 := if coins 2 < 0.5 then
    ({ cc2.1 with Sustain := parent2.Sustain }, { cc2.2 with Sustain := parent1.Sustain }) else cc2
  let cc4 := if coins 3 < 0.5 then
    ({ cc3.1 with Release := parent2.Release }, { cc3.2 with Release := parent1.Release }) else cc3
  let cc5 := if coins 4 < 0.5 then
    ({ cc4.1 with Drive := parent2.Drive }, { cc4.2 with Drive := parent1.Drive }) else cc4
  let cc6 := if coins 5 < 0.5 then
    ({ cc5.1 with FilterCutoff := parent2.FilterCutoff }, { cc5.2 with FilterCutoff := parent1.FilterCutoff }) else cc5
  let cc7 := if coins 6 < 0.5 then
    ({ cc6.1 with Sweep := parent2.Sweep }, { cc6.2 with Sweep := parent1.Sweep }) else cc6
  let cc8 := if coins 7 < 0.5 then
    ({ cc7.1 with PitchDecay := parent2.PitchDecay }, { cc7.2 with PitchDecay := parent1.PitchDecay }) else cc7
  let cc9 := if coins 8 < 0.5 then
    ({ cc8.1 with WaveformType := parent2.WaveformType }, { cc8.2 with WaveformType := parent1.WaveformType }) else cc8
  let cc10 := if coins 9 < 0.5 then
    ({ cc9.1 with NoiseAmount := parent2.NoiseAmount }, { cc9.2 with NoiseAmount := parent1.NoiseAmount }) else cc9
  cc10

/-- Inner loop of tournamentSelection: the competitors after the first, in
source order, with draws i modelling the i-th rand.Intn draw (reduced
modulo the population length, the range of rand.Intn). -/
def tournamentLoop (population : List Settings) (fitnesses : List EF)
    (draws : ℕ → ℕ) : ℕ → ℕ → Settings × EF → Settings × EF
  | _, 0, acc => acc
  | i, rem + 1, acc =>
    let competitorIndex := draws i % population.length
    let competitorFitness := fitnesses.getD competitorIndex .inf
    if competitorFitness.flt acc.2 then
      tournamentLoop population fitnesses draws (i + 1) rem
        (population.getD competitorIndex defaultSettings, competitorFitness)
    else
      tournamentLoop population fitnesses draws (i + 1) rem acc

/-- Tournament selection, translated from tournamentSelection in main.go:
the best (lowest fitness, ties to the earlier draw) of tournamentSize
genomes drawn uniformly with replacement. -/
def tournamentSelection (population : List Settings) (fitnesses : List EF)
    (tournamentSize : ℕ) (draws : ℕ → ℕ) : Settings :=
  let bestIndex := draws 0 % population.length
  let best := population.getD bestIndex defaultSettings
  let bestFitness := fitnesses.getD bestIndex .inf
  (tournamentLoop population fitnesses draws 1 (tournamentSize - 1) (best, bestFitness)).1

/-- The per-gene clamping block that optimizeSettings applies to each child
after mutation (and to each freshly initialized genome). -/
def clampAll (c : Settings) : Settings :=
  { c with
    Attack := clamp c.Attack minAttack maxAttack
    Decay := clamp c.Decay minDecay maxDecay
    Sustain := clamp c.Sustain minSustain maxSustain
    Release := clamp c.Release minRelease maxRelease
    Drive := clamp c.Drive minDrive maxDrive
    FilterCutoff := clamp c.FilterCutoff minFilterCutoff maxFilterCutoff
    Sweep := clamp c.Sweep minSweep maxSweep
    PitchDecay := clamp c.PitchDecay minPitchDecay maxPitchDecay
    NoiseAmount := clamp c.NoiseAmount minNoiseAmount maxNoiseAmount }

/-- Decision oracle for one iteration of the population refill loop: the
tournament draws of the two parents, the crossover coins, and the mutation
decisions of the two children. -/
structure PairDec where
  t1 : ℕ → ℕ
  t2 : ℕ → ℕ
  cross : ℕ → ℚ
  m1 : MutDec
  m2 : MutDec

/-- Configuration constants of the genetic algorithm.  In main.go these are
the const block values (populationSizeC and friends); the spec exposes them
as configuration, so the embedding takes them as parameters and the source
constants instantiate them. -/
structure Config where
  populationSize : ℕ
  tournamentSize : ℕ
  eliteCount : ℕ
  maxGenerations : ℕ
  maxStagnation : ℕ

/-- The configuration actually compiled into main.go. -/
def defaultConfig : Config :=
  ⟨populationSizeC, tournamentSizeC, eliteCountC, maxGenerationsC, maxStagnationC⟩

/-- Body of one iteration of the refill loop of optimizeSettings: select two
parents by tournament, cross them over, mutate both children (with the
allWaveforms flag hard-coded to false, as in the source call sites), and
apply the per-gene clamping block. -/
def makePair (population : List Settings) (fitnesses : List EF) (cfg : Config)
    (d : PairDec) : Settings × Settings :=
  let parent1 := tournamentSelection population fitnesses cfg.tournamentSize d.t1
  let parent2 := tournamentSelection population fitnesses cfg.tournamentSize d.t2
  let children := singlePointCrossover d.cross parent1 parent2
  let child1 := clampAll (mutateSettings d.m1 children.1 false)
  let child2 := clampAll (mutateSettings d.m2 children.2 false)
  (child1, child2)

/-- Refill loop of optimizeSettings: append child pairs while the new
population is smaller than the population size.  The loop adds two genomes
per iteration, so a fuel of populationSize iterations always suffices to
reach the exit condition; dec j supplies the random decisions of the j-th
iteration. -/
def fillPopulation (population : List Settings) (fitnesses : List EF)
    (cfg : Config) (dec : ℕ → PairDec) : ℕ → ℕ → List Settings → List Settings
  | 0, _, newPopulation => newPopulation
  | fuel + 1, j, newPopulation =>
    if newPopulation.length < cfg.populationSize then
      let pair := makePair population fitnesses cfg (dec j)
      fillPopulation population fitnesses cfg dec fuel (j + 1)
        (newPopulation ++ [pair.1, pair.2])
    else newPopulation

/-- Construction of the next population, translated from the block of
optimizeSettings that follows the stagnation check: first min(eliteCount,
populationSize) copies of the current global best genome, then tournament,
crossover, mutation and clamping refill the population, and a final trim
discards the surplus of the last pairing. -/
def nextPopulation (population : List Settings) (fitnesses : List EF)
    (bestSettings : Settings) (cfg : Config) (dec : ℕ → PairDec) : List Settings :=
  let elites := List.replicate (Nat.min cfg.eliteCount cfg.populationSize) bestSettings
  let filled := fillPopulation population fitnesses cfg dec cfg.populationSize 0 elites
  if cfg.populationSize < filled.length then filled.take cfg.populationSize else filled

/-- Scan for the best genome of the current generation, translated from the
linear scan of optimizeSettings: the accumulator starts at positive infinity
with index -1 (modelled as none), and a strictly smaller fitness replaces
it, so the first minimum wins and NaN entries never win. -/
def findBestAux : List EF → ℕ → EF × Option ℕ → EF × Option ℕ
  | [], _, acc => acc
  | fitness :: rest, i, acc =>
    if fitness.flt acc.1 then findBestAux rest (i + 1) (fitness, some i)
    else findBestAux rest (i + 1) acc

/-- Best fitness and its index in the current fitness list. -/
def findBest (fitnesses : List EF) : EF × Option ℕ :=
  findBestAux fitnesses 0 (.inf, none)

/-- Status messages written by setStatusMessage, one constructor per format
string of main.go (the message text itself carries no further logic). -/
inductive Msg where
  | empty : Msg
  | trainingStarted : Msg
  | errNoWav : Msg
  | canceled : Msg
  | globalOptimum : ℕ → Msg
  | stagnation : Msg
  | generationStatus : ℕ → Msg
  deriving DecidableEq

/-- Which exit path of optimizeSettings ended the run; these are the
terminal states of the state machine described in the spec. -/
inductive ExitKind where
  | cancelled : ExitKind
  | converged : ExitKind
  | stagnant : ExitKind
  | exhausted : ExitKind
  deriving DecidableEq

/-- Observable outcome of a run: the exit path taken, the global best genome
and fitness at that moment, the generation index at which the loop stopped,
the value of the trainingOngoing flag after optimizeSettings returned, and
the last status message written. -/
structure RunResult where
  exit : ExitKind
  best : Settings
  bestFit : EF
  generation : ℕ
  trainingOngoing : Bool
  status : Msg
  deriving DecidableEq

/-- Mutable state of the generation loop between iterations. -/
structure LoopState where
  population : List Settings
  bestSettings : Settings
  bestFitness : EF
  stagnationCount : ℕ
  status : Msg

/-- Generation loop of optimizeSettings, translated line by line: each
iteration first polls the cancellation channel, then evaluates every genome,
scans for the generation best, either updates the global best (with the
convergence check against 0.001) or advances the stagnation counter (with
the stagnation check), builds the next population, and records the progress
message.  The fuel argument is the number of loop iterations that remain,
maxGenerations minus the generation counter; the loop condition also reads
the trainingOngoing flag, but during a run nothing outside the loop writes
it, so it stays true until one of the returns modelled here.  When the fuel
runs out the function falls out of the loop: main.go then stores the best
genome in the active pad but writes no final message and never resets
trainingOngoing, which is recorded verbatim in the result. -/
def optimizeLoop (fit : Settings → EF) (cfg : Config) (cancel : ℕ → Bool)
    (dec : ℕ → ℕ → PairDec) : ℕ → ℕ → LoopState → RunResult
  | 0, generation, st =>
    { exit := .exhausted, best := st.bestSettings, bestFit := st.bestFitness,
      generation := generation, trainingOngoing := true, status := st.status }
  | fuel + 1, generation, st =>
    if cancel generation then
      { exit := .cancelled, best := st.bestSettings, bestFit := st.bestFitness,
        generation := generation, trainingOngoing := false, status := .canceled }
    else
      let fitnesses := st.population.map fit
      let found := findBest fitnesses
      let stagnate : Unit → RunResult := fun _ =>
        let stagnationCount := st.stagnationCount + 1
        if cfg.maxStagnation ≤ stagnationCount then
          { exit := .stagnant, best := st.bestSettings, bestFit := st.bestFitness,
            generation := generation, trainingOngoing := false, status := .stagnation }
        else
          let newPopulation :=
            nextPopulation st.population fitnesses st.bestSettings cfg (dec generation)
          optimizeLoop fit cfg cancel dec fuel (generation + 1)
            { population := newPopulation, bestSettings := st.bestSettings,
              bestFitness := st.bestFitness, stagnationCount := stagnationCount,
              status := .generationStatus generation }
      match found.2 with
      | some currentBestIndex =>
        if (fitnesses.getD currentBestIndex .inf).flt st.bestFitness then
          let bestFitness := fitnesses.getD currentBestIndex .inf
          let bestSettings := st.population.getD currentBestIndex defaultSettings
          if bestFitness.flt (.fin 0.001) then
            { exit := .converged, best := bestSettings, bestFit := bestFitness,
              generation := generation, trainingOngoing := false,
              status := .globalOptimum generation }
          else
            let newPopulation :=
              nextPopulation st.population fitnesses bestSettings cfg (dec generation)
            optimizeLoop fit cfg cancel dec fuel (generation + 1)
              { population := newPopulation, bestSettings := bestSettings,
                bestFitness := bestFitness, stagnationCount := 0,
                status := .generationStatus generation }
        else stagnate ()
      | none => stagnate ()

/-- A whole run of the generation loop from an already initialized
population: the global best starts as a copy of the genome at index 0 with
its fitness, the stagnation counter at 0, exactly as in optimizeSettings
right before the loop. -/
def optimizeRun (fit : Settings → EF) (cfg : Config) (cancel : ℕ → Bool)
    (dec : ℕ → ℕ → PairDec) (population : List Settings) : RunResult :=
  let bestSettings := population.getD 0 defaultSettings
  let bestFitness := fit bestSettings
  optimizeLoop fit cfg cancel dec cfg.maxGenerations 0
    { population := population, bestSettings := bestSettings,
      bestFitness := bestFitness, stagnationCount := 0, status := .trainingStarted }

/-- Go slice length: nil has length 0. -/
def waveLen : Wave → ℕ
  | none => 0
  | some l => l.length

/-- Externally observable controller state around a run: the loaded target
waveform, the trainingOngoing flag, and the status message. -/
structure Controller where
  loadedWaveform : Wave
  trainingOngoing : Bool
  status : Msg
  deriving DecidableEq

/-- Start of a run, translated from the Find-sound button handler of
generateTrainingButtons composed with the entry check of optimizeSettings:
the handler refuses to start while trainingOngoing is set, otherwise it sets
trainingOngoing to true and launches optimizeSettings, whose first statement
rejects the run with an error message when the loaded waveform has length
zero, leaving the flag as the handler set it. -/
def startTraining (c : Controller) : Controller :=
  if c.trainingOngoing then c
  else
    let started : Controller := { c with trainingOngoing := true }
    if waveLen started.loadedWaveform = 0 then
      { started with status := .errNoWav }
    else
      { started with status := .trainingStarted }

/-- Bounds invariant of the spec: every continuous gene lies within its
declared closed bound from the const block of main.go. -/
def InBounds (c : Settings) : Prop :=
  (minAttack ≤ c.Attack ∧ c.Attack ≤ maxAttack) ∧
  (minDecay ≤ c.Decay ∧ c.Decay ≤ maxDecay) ∧
  (minSustain ≤ c.Sustain ∧ c.Sustain ≤ maxSustain) ∧
  (minRelease ≤ c.Release ∧ c.Release ≤ maxRelease) ∧
  (minDrive ≤ c.Drive ∧ c.Drive ≤ maxDrive) ∧
  (minFilterCutoff ≤ c.FilterCutoff ∧ c.FilterCutoff ≤ maxFilterCutoff) ∧
  (minSweep ≤ c.Sweep ∧ c.Sweep ≤ maxSweep) ∧
  (minPitchDecay ≤ c.PitchDecay ∧ c.PitchDecay ≤ maxPitchDecay) ∧
  (minNoiseAmount ≤ c.NoiseAmount ∧ c.NoiseAmount ≤ maxNoiseAmount)

instance (c : Settings) : Decidable (InBounds c) := by
  unfold InBounds
  infer_instance

/-- The two values a, b are the pair x, y in one of the two orders; this is
what crossover guarantees per gene for the children versus the parents. -/
def genePair {α : Type} (a b x y : α) : Prop :=
  (a = x ∧ b = y) ∨ (a = y ∧ b = x)

instance {α : Type} [DecidableEq α] (a b x y : α) : Decidable (genePair a b x y) := by
  unfold genePair
  infer_instance

/-- The fitness range promised by the spec: a non-negative finite value or
positive infinity; NaN in particular is excluded. -/
def validScore : EF → Bool
  | .nan => false
  | .inf => true
  | .fin q => decide (0 ≤ q)

/-- Mutation oracle whose coins never fire (every probability draw is 1,
which is not below the mutation rate). -/
def trivMutDec : MutDec := ⟨fun _ => 1, fun _ => 0, 0⟩

/-- Refill oracle with fixed draws: both tournaments draw index 0, no
crossover coin fires, no mutation fires. -/
def trivPairDec : PairDec := ⟨fun _ => 0, fun _ => 0, fun _ => 1, trivMutDec, trivMutDec⟩

/-- A genome distinct from defaultSettings, used as concrete material. -/
def gB : Settings := { defaultSettings with Attack := 1 }

/-- A genome with every continuous gene at its lower bound. -/
def gBounds : Settings :=
  ⟨0.05, 0.05, 0.1, 0.05, 0, 500, 0.1, 0.1, 0, 0, 44100, 16⟩

/-! Helper lemmas.  These are shared between the claim theorems below. -/

lemma clamp_mem (v lo hi : ℚ) (h : lo ≤ hi) :
    lo ≤ clamp v lo hi ∧ clamp v lo hi ≤ hi := by
  unfold clamp
  split_ifs <;> constructor <;> linarith

lemma EF.flt_inf_left (y : EF) : EF.flt .inf y = false := by
  cases y <;> rfl

lemma EF.flt_nan_left (y : EF) : EF.flt .nan y = false := by
  cases y <;> rfl

lemma EF.fin_of_flt {x y : EF} (h : EF.flt x y = true) : ∃ q, x = .fin q := by
  cases x <;> cases y <;> simp_all [EF.flt]

lemma getD_map_fit (fit : Settings → EF) (l : List Settings) (i : ℕ) :
    (l.map fit).getD i .inf = .inf ∨ ∃ g, (l.map fit).getD i .inf = fit g := by
  rw [List.getD_eq_getElem?_getD, List.getElem?_map]
  rcases l[i]? with _ | g
  · left; rfl
  · right; exact ⟨g, rfl⟩

lemma mutate_Attack (dec : MutDec) (cfg : Settings) (b : Bool) :
    (mutateSettings dec cfg b).Attack =
      if dec.p 0 < mutationRate then
        clamp (cfg.Attack * (0.8 + dec.f 0 * 0.4)) minAttack maxAttack
      else cfg.Attack := by
  simp [mutateSettings, apply_ite Settings.Attack, ite_self]

lemma mutate_Decay (dec : MutDec) (cfg : Settings) (b : Bool) :
    (mutateSettings dec cfg b).Decay =
      if dec.p 1 < mutationRate then
        clamp (cfg.Decay * (0.8 + dec.f 1 * 0.4)) minDecay maxDecay
      else cfg.Decay := by
  simp [mutateSettings, apply_ite Settings.Decay, ite_self]

lemma mutate_Sustain (dec : MutDec) (cfg : Settings) (b : Bool) :
    (mutateSettings dec cfg b).Sustain =
      if dec.p 2 < mutationRate then
        clamp (cfg.Sustain * (0.8 + dec.f 2 * 0.4)) minSustain maxSustain
      else cfg.Sustain := by
  simp [mutateSettings, apply_ite Settings.Sustain, ite_self]

lemma mutate_Release (dec : MutDec) (cfg : Settings) (b : Bool) :
    (mutateSettings dec cfg b).Release =
      if dec.p 3 < mutationRate then
        clamp (cfg.Release * (0.8 + dec.f 3 * 0.4)) minRelease maxRelease
      else cfg.Release := by
  simp [mutateSettings, apply_ite Settings.Release, ite_self]

lemma mutate_Drive (dec : MutDec) (cfg : Settings) (b : Bool) :
    (mutateSettings dec cfg b).Drive =
      if dec.p 4 < mutationRate then
        clamp (cfg.Drive * (0.8 + dec.f 4 * 0.4)) minDrive maxDrive
      else cfg.Drive := by
  simp [mutateSettings, apply_ite Settings.Drive, ite_self]

lemma mutate_FilterCutoff (dec : MutDec) (cfg : Settings) (b : Bool) :
    (mutateSettings dec cfg b).FilterCutoff =
      if dec.p 5 < mutationRate then
        clamp (cfg.FilterCutoff * (0.8 + dec.f 5 * 0.4)) minFilterCutoff maxFilterCutoff
      else cfg.FilterCutoff := by
  simp [mutateSettings, apply_ite Settings.FilterCutoff, ite_self]

lemma mutate_Sweep (dec : MutDec) (cfg : Settings) (b : Bool) :
    (mutateSettings dec cfg b).Sweep =
      if dec.p 6 < mutationRate then
        clamp (cfg.Sweep * (0.8 + dec.f 6 * 0.4)) minSweep maxSweep
      else cfg.Sweep := by
  simp [mutateSettings, apply_ite Settings.Sweep, ite_self]

lemma mutate_PitchDecay (dec : MutDec) (cfg : Settings) (b : Bool) :
    (mutateSettings dec cfg b).PitchDecay =
      if dec.p 7 < mutationRate then
        clamp (cfg.PitchDecay * (0.8 + dec.f 7 * 0.4)) minPitchDecay maxPitchDecay
      else cfg.PitchDecay := by
  simp [mutateSettings, apply_ite Settings.PitchDecay, ite_self]

lemma mutate_WaveformType (dec : MutDec) (cfg : Settings) (b : Bool) :
    (mutateSettings dec cfg b).WaveformType =
      if dec.p 8 < mutationRate then dec.w % (if b then 7 else 2)
      else cfg.WaveformType := by
  simp [mutateSettings, apply_ite Settings.WaveformType, ite_self]

lemma mutate_NoiseAmount (dec : MutDec) (cfg : Settings) (b : Bool) :
    (mutateSettings dec cfg b).NoiseAmount =
      if dec.p 9 < mutationRate then
        clamp (cfg.NoiseAmount * (0.8 + dec.f 8 * 0.4)) minNoiseAmount maxNoiseAmount
      else cfg.NoiseAmount := by
  simp [mutateSettings, apply_ite Settings.NoiseAmount, ite_self]

lemma crossFst_Attack (coins : ℕ → ℚ) (p1 p2 : Settings) :
    (singlePointCrossover coins p1 p2).1.Attack =
      if coins 0 < (0.5 : ℚ) then p2.Attack else p1.Attack := by
  simp [singlePointCrossover, apply_ite Prod.fst, apply_ite Settings.Attack, ite_self]

lemma crossSnd_Attack (coins : ℕ → ℚ) (p1 p2 : Settings) :
    (singlePointCrossover coins p1 p2).2.Attack =
      if coins 0 < (0.5 : ℚ) then p1.Attack else p2.Attack := by
  simp [singlePointCrossover, apply_ite Prod.snd, apply_ite Settings.Attack, ite_self]

lemma crossFst_Decay (coins : ℕ → ℚ) (p1 p2 : Settings) :
    (singlePointCrossover coins p1 p2).1.Decay =
      if coins 1 < (0.5 : ℚ) then p2.Decay else p1.Decay := by
  simp [singlePointCrossover, apply_ite Prod.fst, apply_ite Settings.Decay, ite_self]

lemma crossSnd_Decay (coins : ℕ → ℚ) (p1 p2 : Settings) :
    (singlePointCrossover coins p1 p2).2.Decay =
      if coins 1 < (0.5 : ℚ) then p1.Decay else p2.Decay := by
  simp [singlePointCrossover, apply_ite Prod.snd, apply_ite Settings.Decay, ite_self]

lemma crossFst_Sustain (coins : ℕ → ℚ) (p1 p2 : Settings) :
    (singlePointCrossover coins p1 p2).1.Sustain =
      if coins 2 < (0.5 : ℚ) then p2.Sustain else p1.Sustain := by
  simp [singlePointCrossover, apply_ite Prod.fst, apply_ite Settings.Sustain, ite_self]

lemma crossSnd_Sustain (coins : ℕ → ℚ) (p1 p2 : Settings) :
    (singlePointCrossover coins p1 p2).2.Sustain =
      if coins 2 < (0.5 : ℚ) then p1.Sustain else p2.Sustain := by
  simp [singlePointCrossover, apply_ite Prod.snd, apply_ite Settings.Sustain, ite_self]

lemma crossFst_Release (coins : ℕ → ℚ) (p1 p2 : Settings) :
    (singlePointCrossover coins p1 p2).1.Release =
      if coins 3 < (0.5 : ℚ) then p2.Release else p1.Release := by
  simp [singlePointCrossover, apply_ite Prod.fst, apply_ite Settings.Release, ite_self]

lemma crossSnd_Release (coins : ℕ → ℚ) (p1 p2 : Settings) :
    (singlePointCrossover coins p1 p2).2.Release =
      if coins 3 < (0.5 : ℚ) then p1.Release else p2.Release := by
  simp [singlePointCrossover, apply_ite Prod.snd, apply_ite Settings.Release, ite_self]

lemma crossFst_Drive (coins : ℕ → ℚ) (p1 p2 : Settings) :
    (singlePointCrossover coins p1 p2).1.Drive =
      if coins 4 < (0.5 : ℚ) then p2.Drive else p1.Drive := by
  simp [singlePointCrossover, apply_ite Prod.fst, apply_ite Settings.Drive, ite_self]

lemma crossSnd_Drive (coins : ℕ → ℚ) (p1 p2 : Settings) :
    (singlePointCrossover coins p1 p2).2.Drive =
      if coins 4 < (0.5 : ℚ) then p1.Drive else p2.Drive := by
  simp [singlePointCrossover, apply_ite Prod.snd, apply_ite Settings.Drive, ite_self]

lemma crossFst_FilterCutoff (coins : ℕ → ℚ) (p1 p2 : Settings) :
    (singlePointCrossover coins p1 p2).1.FilterCutoff =
      if coins 5 < (0.5 : ℚ) then p2.FilterCutoff else p1.FilterCutoff := by
  simp [singlePointCrossover, apply_ite Prod.fst, apply_ite Settings.FilterCutoff, ite_self]

lemma crossSnd_FilterCutoff (coins : ℕ → ℚ) (p1 p2 : Settings) :
    (singlePointCrossover coins p1 p2).2.FilterCutoff =
      if coins 5 < (0.5 : ℚ) then p1.FilterCutoff else p2.FilterCutoff := by
  simp [singlePointCrossover, apply_ite Prod.snd, apply_ite Settings.FilterCutoff, ite_self]

lemma crossFst_Sweep (coins : ℕ → ℚ) (p1 p2 : Settings) :
    (singlePointCrossover coins p1 p2).1.Sweep =
      if coins 6 < (0.5 : ℚ) then p2.Sweep else p1.Sweep := by
  simp [singlePointCrossover, apply_ite Prod.fst, apply_ite Settings.Sweep, ite_self]

lemma crossSnd_Sweep (coins : ℕ → ℚ) (p1 p2 : Settings) :
    (singlePointCrossover coins p1 p2).2.Sweep =
      if coins 6 < (0.5 : ℚ) then p1.Sweep else p2.Sweep := by
  simp [singlePointCrossover, apply_ite Prod.snd, apply_ite Settings.Sweep, ite_self]

lemma crossFst_PitchDecay (coins : ℕ → ℚ) (p1 p2 : Settings) :
    (singlePointCrossover coins p1 p2).1.PitchDecay =
      if coins 7 < (0.5 : ℚ) then p2.PitchDecay else p1.PitchDecay := by
  simp [singlePointCrossover, apply_ite Prod.fst, apply_ite Settings.PitchDecay, ite_self]

lemma crossSnd_PitchDecay (coins : ℕ → ℚ) (p1 p2 : Settings) :
    (singlePointCrossover coins p1 p2).2.PitchDecay =
      if coins 7 < (0.5 : ℚ) then p1.PitchDecay else p2.PitchDecay := by
  simp [singlePointCrossover, apply_ite Prod.snd, apply_ite Settings.PitchDecay, ite_self]

lemma crossFst_WaveformType (coins : ℕ → ℚ) (p1 p2 : Settings) :
    (singlePointCrossover coins p1 p2).1.WaveformType =
      if coins 8 < (0.5 : ℚ) then p2.WaveformType else p1.WaveformType := by
  simp [singlePointCrossover, apply_ite Prod.fst, apply_ite Settings.WaveformType, ite_self]

lemma crossSnd_WaveformType (coins : ℕ → ℚ) (p1 p2 : Settings) :
    (singlePointCrossover coins p1 p2).2.WaveformType =
      if coins 8 < (0.5 : ℚ) then p1.WaveformType else p2.WaveformType := by
  simp [singlePointCrossover, apply_ite Prod.snd, apply_ite Settings.WaveformType, ite_self]

lemma crossFst_NoiseAmount (coins : ℕ → ℚ) (p1 p2 : Settings) :
    (singlePointCrossover coins p1 p2).1.NoiseAmount =
      if coins 9 < (0.5 : ℚ) then p2.NoiseAmount else p1.NoiseAmount := by
  simp [singlePointCrossover, apply_ite Prod.fst, apply_ite Settings.NoiseAmount, ite_self]

lemma crossSnd_NoiseAmount (coins : ℕ → ℚ) (p1 p2 : Settings) :
    (singlePointCrossover coins p1 p2).2.NoiseAmount =
      if coins 9 < (0.5 : ℚ) then p1.NoiseAmount else p2.NoiseAmount := by
  simp [singlePointCrossover, apply_ite Prod.snd, apply_ite Settings.NoiseAmount, ite_self]

lemma sumSqDiff_nonneg (l1 l2 : List ℚ) (m : ℕ) : 0 ≤ sumSqDiff l1 l2 m := by
  unfold sumSqDiff
  exact Finset.sum_nonneg fun i _ => sq_nonneg _

lemma nextPowerOfTwo_pos (n : ℕ) : 0 < nextPowerOfTwo n := by
  unfold nextPowerOfTwo
  split_ifs
  · exact one_pos
  · exact pow_pos (by norm_num) _

lemma compareWaveforms_fin (l1 l2 : List ℚ) (h1 : l1 ≠ []) (h2 : l2 ≠ []) :
    compareWaveforms (some l1) (some l2) =
      .fin (sumSqDiff l1 l2 (Nat.min l1.length l2.length) /
        ((Nat.min l1.length l2.length : ℕ) : ℚ)) := by
  have hm : Nat.min l1.length l2.length ≠ 0 := by
    have g1 : 0 < l1.length := List.length_pos.mpr h1
    have g2 : 0 < l2.length := List.length_pos.mpr h2
    have : 0 < Nat.min l1.length l2.length := lt_min g1 g2
    omega
  unfold compareWaveforms fdivNN
  simp [hm]

lemma compareWaveformsFFT_fin (mag : List ℚ → List ℚ) (l1 l2 : List ℚ) (sr : ℕ) :
    compareWaveformsFFT mag (some l1) (some l2) sr =
      .fin (sumSqDiff
          (mag (l1.take (nextPowerOfTwo (Nat.min l1.length l2.length)) ++
            List.replicate (nextPowerOfTwo (Nat.min l1.length l2.length) - l1.length) 0))
          (mag (l2.take (nextPowerOfTwo (Nat.min l1.length l2.length)) ++
            List.replicate (nextPowerOfTwo (Nat.min l1.length l2.length) - l2.length) 0))
          (nextPowerOfTwo (Nat.min l1.length l2.length)) /
        ((nextPowerOfTwo (Nat.min l1.length l2.length) : ℕ) : ℚ)) := by
  have hn : nextPowerOfTwo (Nat.min l1.length l2.length) ≠ 0 :=
    (nextPowerOfTwo_pos _).ne'
  unfold compareWaveformsFFT fdivNN
  simp [hn]

lemma compareWaveformsSafe_eq (render : Settings → Option Wave)
    (mag : List ℚ → List ℚ) (target : Wave) (sr : ℕ) (g : Settings)
    (w T : List ℚ) (tv fv : ℚ)
    (hr : render g = some (some w)) (htgt : target = some T)
    (ht : compareWaveforms (some w) (some T) = .fin tv)
    (hf : compareWaveformsFFT mag (some w) (some T) sr = .fin fv) :
    compareWaveformsSafe render mag target sr g =
      .fin (0.5 * tv + 0.5 * fv +
        (if g.Attack + g.Decay + g.Release < minSampleDuration then
          (minSampleDuration - (g.Attack + g.Decay + g.Release)) * 1000 else 0) +
        (if g.Attack + g.Decay + g.Release > maxSampleDuration then
          (g.Attack + g.Decay + g.Release - maxSampleDuration) * 1000 else 0)) := by
  subst htgt
  unfold compareWaveformsSafe
  rw [hr]
  simp only [ht, hf, EF.scale]
  split_ifs <;> simp only [EF.add, EF.fin.injEq] <;> ring

lemma step_cancel (fit : Settings → EF) (cfg : Config) (cancel : ℕ → Bool)
    (dec : ℕ → ℕ → PairDec) (fuel generation : ℕ) (st : LoopState)
    (hc : cancel generation = true) :
    optimizeLoop fit cfg cancel dec (fuel + 1) generation st =
      { exit := .cancelled, best := st.bestSettings, bestFit := st.bestFitness,
        generation := generation, trainingOngoing := false, status := .canceled } := by
  simp only [optimizeLoop, hc]
  rfl

lemma step_no_improve (fit : Settings → EF) (cfg : Config) (cancel : ℕ → Bool)
    (dec : ℕ → ℕ → PairDec) (fuel generation : ℕ) (st : LoopState)
    (hc : cancel generation = false)
    (hni : ∀ g : Settings, EF.flt (fit g) st.bestFitness = false) :
    optimizeLoop fit cfg cancel dec (fuel + 1) generation st =
      if cfg.maxStagnation ≤ st.stagnationCount + 1 then
        { exit := .stagnant, best := st.bestSettings, bestFit := st.bestFitness,
          generation := generation, trainingOngoing := false, status := .stagnation }
      else
        optimizeLoop fit cfg cancel dec fuel (generation + 1)
          { population := nextPopulation st.population (st.population.map fit)
              st.bestSettings cfg (dec generation),
            bestSettings := st.bestSettings, bestFitness := st.bestFitness,
            stagnationCount := st.stagnationCount + 1,
            status := .generationStatus generation } := by
  have hflt : ∀ i, ((st.population.map fit).getD i .inf).flt st.bestFitness = false := by
    intro i
    rcases getD_map_fit fit st.population i with h | ⟨g, h⟩
    · rw [h, EF.flt_inf_left]
    · rw [h]; exact hni g
  simp only [optimizeLoop, hc, Bool.false_eq_true, if_false]
  rcases hfb : (findBest (st.population.map fit)).2 with _ | i
  · simp only [hfb]
  · simp only [hfb, hflt i, Bool.false_eq_true, if_false]

lemma step_improve (fit : Settings → EF) (cfg : Config) (cancel : ℕ → Bool)
    (dec : ℕ → ℕ → PairDec) (fuel generation : ℕ) (st : LoopState) (i : ℕ)
    (hc : cancel generation = false)
    (hfb : (findBest (st.population.map fit)).2 = some i)
    (himp : ((st.population.map fit).getD i .inf).flt st.bestFitness = true)
    (hnc : ((st.population.map fit).getD i .inf).flt (.fin 0.001) = false) :
    optimizeLoop fit cfg cancel dec (fuel + 1) generation st =
      optimizeLoop fit cfg cancel dec fuel (generation + 1)
        { population := nextPopulation st.population (st.population.map fit)
            (st.population.getD i defaultSettings) cfg (dec generation),
          bestSettings := st.population.getD i defaultSettings,
          bestFitness := (st.population.map fit).getD i .inf,
          stagnationCount := 0, status := .generationStatus generation } := by
  simp only [optimizeLoop, hc, Bool.false_eq_true, if_false, hfb, himp, if_true, hnc]

lemma stagnation_phase (fit : Settings → EF) (cfg : Config) (cancel : ℕ → Bool)
    (dec : ℕ → ℕ → PairDec) (b0 : Settings) (f0 : EF)
    (hcancel : ∀ j, cancel j = false)
    (hni : ∀ g : Settings, EF.flt (fit g) f0 = false) :
    ∀ k, 1 ≤ k → ∀ s, s + k = cfg.maxStagnation → ∀ fuel, k ≤ fuel →
      ∀ gen pop status,
      optimizeLoop fit cfg cancel dec fuel gen ⟨pop, b0, f0, s, status⟩ =
        ⟨.stagnant, b0, f0, gen + k - 1, false, .stagnation⟩ := by
  intro k
  induction k with
  | zero => omega
  | succ k ih =>
    intro _ s hs fuel hfuel gen pop status
    obtain ⟨fuel', rfl⟩ : ∃ fuel', fuel = fuel' + 1 := ⟨fuel - 1, by omega⟩
    rw [step_no_improve fit cfg cancel dec fuel' gen ⟨pop, b0, f0, s, status⟩
      (hcancel gen) hni]
    by_cases hstag : cfg.maxStagnation ≤ s + 1
    · have hk0 : k = 0 := by omega
      subst hk0
      simp [hstag]
    · have hk1 : 1 ≤ k := by omega
      rw [if_neg hstag]
      rw [ih hk1 (s + 1) (by omega) fuel' (by omega) (gen + 1) _ _]
      have harith : gen + 1 + k - 1 = gen + (k + 1) - 1 := by omega
      rw [harith]

lemma fillPopulation_extends (population : List Settings) (fitnesses : List EF)
    (cfg : Config) (dec : ℕ → PairDec) :
    ∀ fuel j acc, ∃ tail,
      fillPopulation population fitnesses cfg dec fuel j acc = acc ++ tail ∧
      ∀ x ∈ tail, ∃ k, x = (makePair population fitnesses cfg (dec k)).1 ∨
        x = (makePair population fitnesses cfg (dec k)).2 := by
  intro fuel
  induction fuel with
  | zero =>
    intro j acc
    refine ⟨[], by simp [fillPopulation], ?_⟩
    intro x hx
    simp at hx
  | succ fuel ih =>
    intro j acc
    by_cases h : acc.length < cfg.populationSize
    · obtain ⟨tail, heq, hmem⟩ := ih (j + 1)
        (acc ++ [(makePair population fitnesses cfg (dec j)).1,
          (makePair population fitnesses cfg (dec j)).2])
      refine ⟨(makePair population fitnesses cfg (dec j)).1 ::
        (makePair population fitnesses cfg (dec j)).2 :: tail, ?_, ?_⟩
      · simp only [fillPopulation, h, if_true]
        rw [heq]
        simp
      · intro x hx
        simp only [List.mem_cons] at hx
        rcases hx with hx | hx | hx
        · exact ⟨j, Or.inl hx⟩
        · exact ⟨j, Or.inr hx⟩
        · exact hmem x hx
    · refine ⟨[], by simp [fillPopulation, h], ?_⟩
      intro x hx
      simp at hx

lemma fillPopulation_length (population : List Settings) (fitnesses : List EF)
    (cfg : Config) (dec : ℕ → PairDec) :
    ∀ fuel j acc, cfg.populationSize ≤ acc.length + 2 * fuel →
      cfg.populationSize ≤
        (fillPopulation population fitnesses cfg dec fuel j acc).length := by
  intro fuel
  induction fuel with
  | zero =>
    intro j acc h
    simp only [fillPopulation]
    omega
  | succ fuel ih =>
    intro j acc h
    by_cases hlt : acc.length < cfg.populationSize
    · simp only [fillPopulation, hlt, if_true]
      apply ih
      simp only [List.length_append, List.length_cons, List.length_nil]
      omega
    · simp only [fillPopulation, hlt, if_false]
      omega

lemma nextPopulation_take (population : List Settings) (fitnesses : List EF)
    (bestSettings : Settings) (cfg : Config) (dec : ℕ → PairDec) :
    nextPopulation population fitnesses bestSettings cfg dec =
      (fillPopulation population fitnesses cfg dec cfg.populationSize 0
        (List.replicate (Nat.min cfg.eliteCount cfg.populationSize)
          bestSettings)).take cfg.populationSize := by
  have hlen : cfg.populationSize ≤
      (fillPopulation population fitnesses cfg dec cfg.populationSize 0
        (List.replicate (Nat.min cfg.eliteCount cfg.populationSize)
          bestSettings)).length := by
    apply fillPopulation_length
    simp only [List.length_replicate]
    omega
  unfold nextPopulation
  by_cases h : cfg.populationSize <
      (fillPopulation population fitnesses cfg dec cfg.populationSize 0
        (List.replicate (Nat.min cfg.eliteCount cfg.populationSize)
          bestSettings)).length
  · simp only [h, if_true]
  · simp only [h, if_false]
    rw [List.take_of_length_le (by omega)]

lemma optimizeLoop_bestFit (fit : Settings → EF) (cfg : Config)
    (cancel : ℕ → Bool) (dec : ℕ → ℕ → PairDec) :
    ∀ fuel generation st,
      (optimizeLoop fit cfg cancel dec fuel generation st).bestFit = st.bestFitness ∨
      ∃ q, (optimizeLoop fit cfg cancel dec fuel generation st).bestFit = .fin q := by
  intro fuel
  induction fuel with
  | zero => intro gen st; left; rfl
  | succ fuel ih =>
    intro gen st
    by_cases hc : cancel gen = true
    · left
      rw [step_cancel fit cfg cancel dec fuel gen st hc]
    · have hc' : cancel gen = false := by
        simp only [Bool.not_eq_true] at hc
        exact hc
      simp only [optimizeLoop, hc', Bool.false_eq_true, if_false]
      rcases hfb : (findBest (st.population.map fit)).2 with _ | i
      · simp only [hfb]
        by_cases hstag : cfg.maxStagnation ≤ st.stagnationCount + 1
        · simp only [hstag, if_true]
          left
          trivial
        · simp only [hstag, if_false]
          exact ih (gen + 1) _
      · simp only [hfb]
        by_cases himp : ((st.population.map fit).getD i .inf).flt st.bestFitness = true
        · simp only [himp, if_true]
          obtain ⟨q, hq⟩ := EF.fin_of_flt himp
          by_cases hconv : ((st.population.map fit).getD i .inf).flt (.fin 0.001) = true
          · simp only [hconv, if_true]
            right
            exact ⟨q, hq⟩
          · have hconv' : ((st.population.map fit).getD i .inf).flt (.fin 0.001) = false := by
              simp only [Bool.not_eq_true] at hconv
              exact hconv
            simp only [hconv', Bool.false_eq_true, if_false]
            rcases ih (gen + 1)
              { population := nextPopulation st.population (st.population.map fit)
                  (st.population.getD i defaultSettings) cfg (dec gen),
                bestSettings := st.population.getD i defaultSettings,
                bestFitness := (st.population.map fit).getD i .inf,
                stagnationCount := 0, status := .generationStatus gen } with h | h
            · right
              exact ⟨q, h.trans hq⟩
            · right
              exact h
        · have himp' : ((st.population.map fit).getD i .inf).flt st.bestFitness = false := by
            simp only [Bool.not_eq_true] at himp
            exact himp
          simp only [himp', Bool.false_eq_true, if_false]
          by_cases hstag : cfg.maxStagnation ≤ st.stagnationCount + 1
          · simp only [hstag, if_true]
            left
            trivial
          · simp only [hstag, if_false]
            exact ih (gen + 1) _

lemma score_formula_nonneg (g : Settings) (tv fv : ℚ) (h1 : 0 ≤ tv) (h2 : 0 ≤ fv) :
    0 ≤ 0.5 * tv + 0.5 * fv +
      (if g.Attack + g.Decay + g.Release < minSampleDuration then
        (minSampleDuration - (g.Attack + g.Decay + g.Release)) * 1000 else 0) +
      (if g.Attack + g.Decay + g.Release > maxSampleDuration then
        (g.Attack + g.Decay + g.Release - maxSampleDuration) * 1000 else 0) := by
  have p1 : (0:ℚ) ≤
      if g.Attack + g.Decay + g.Release < minSampleDuration then
        (minSampleDuration - (g.Attack + g.Decay + g.Release)) * 1000 else 0 := by
    split_ifs with h
    · exact mul_nonneg (by linarith) (by norm_num)
    · exact le_refl 0
  have p2 : (0:ℚ) ≤
      if g.Attack + g.Decay + g.Release > maxSampleDuration then
        (g.Attack + g.Decay + g.Release - maxSampleDuration) * 1000 else 0 := by
    split_ifs with h
    · exact mul_nonneg (by linarith) (by norm_num)
    · exact le_refl 0
  linarith

lemma gBounds_in : InBounds gBounds := by
  norm_num [InBounds, gBounds, minAttack, maxAttack, minDecay, maxDecay,
    minSustain, maxSustain, minRelease, maxRelease, minDrive, maxDrive,
    minFilterCutoff, maxFilterCutoff, minSweep, maxSweep, minPitchDecay,
    maxPitchDecay, minNoiseAmount, maxNoiseAmount]

/-! Claim theorems. -/

/-- Claim C1, counterexample: the source copies eliteCount clones of the
single global-best genome into the next population, not the eliteCount
top-ranked genomes of the current scored population.  Here the population
consists of two distinct genomes scored 5 and 6 (so both are the two
top-ranked genomes of a population of size 2 with eliteCount 2), the global
best is the first of them, and the next population is two clones of the
global best: the second-ranked genome does not appear at all, contradicting
the claim that the two top-ranked genomes are copied unchanged. -/
theorem c1_counterexample :
    EF.flt (.fin 5) (.fin 6) = true ∧
    nextPopulation [defaultSettings, gB] [.fin 5, .fin 6] defaultSettings
      ⟨2, 1, 2, 1, 1⟩ (fun _ => trivPairDec) = [defaultSettings, defaultSettings] ∧
    gB ∉ nextPopulation [defaultSettings, gB] [.fin 5, .fin 6] defaultSettings
      ⟨2, 1, 2, 1, 1⟩ (fun _ => trivPairDec) := by
  decide

/-- Claim C1, amended: in every generation transition the next population is
built by first copying min(eliteCount, N) clones of the current global best
genome, then repeatedly selecting two parents by tournament selection,
applying crossover and mutation to both children and appending them, until
the population is refilled; any surplus from the last pairing is discarded
so the result has size exactly N.  Formally: the new population has length
exactly N, its first min(eliteCount, N) entries are clones of the global
best, and every remaining entry is one of the two children produced by some
iteration of the refill loop. -/
theorem c1_theorem (population : List Settings) (fitnesses : List EF)
    (bestSettings : Settings) (cfg : Config) (dec : ℕ → PairDec) :
    (nextPopulation population fitnesses bestSettings cfg dec).length =
      cfg.populationSize ∧
    (nextPopulation population fitnesses bestSettings cfg dec).take
        (Nat.min cfg.eliteCount cfg.populationSize) =
      List.replicate (Nat.min cfg.eliteCount cfg.populationSize) bestSettings ∧
    ∀ x ∈ (nextPopulation population fitnesses bestSettings cfg dec).drop
        (Nat.min cfg.eliteCount cfg.populationSize),
      ∃ k, x = (makePair population fitnesses cfg (dec k)).1 ∨
        x = (makePair population fitnesses cfg (dec k)).2 := by
  obtain ⟨tail, heq, hmem⟩ := fillPopulation_extends population fitnesses cfg dec
    cfg.populationSize 0
    (List.replicate (Nat.min cfg.eliteCount cfg.populationSize) bestSettings)
  have hlen : cfg.populationSize ≤
      (fillPopulation population fitnesses cfg dec cfg.populationSize 0
        (List.replicate (Nat.min cfg.eliteCount cfg.populationSize)
          bestSettings)).length := by
    apply fillPopulation_length
    simp only [List.length_replicate]
    omega
  rw [nextPopulation_take, heq]
  rw [heq] at hlen
  simp only [List.length_append, List.length_replicate] at hlen
  refine ⟨?_, ?_, ?_⟩
  · rw [List.length_take]
    simp only [List.length_append, List.length_replicate]
    omega
  · rw [List.take_append_eq_append_take]
    rw [List.take_of_length_le
      (show (List.replicate (Nat.min cfg.eliteCount cfg.populationSize)
          bestSettings).length ≤ cfg.populationSize by
        simp only [List.length_replicate]
        exact Nat.min_le_right _ _)]
    rw [List.take_append_eq_append_take]
    rw [List.take_of_length_le
      (show (List.replicate (Nat.min cfg.eliteCount cfg.populationSize)
          bestSettings).length ≤ Nat.min cfg.eliteCount cfg.populationSize by
        simp)]
    simp
  · intro x hx
    rw [List.take_append_eq_append_take,
      List.take_of_length_le (by simp)] at hx
    rw [List.drop_append_eq_append_drop] at hx
    simp only [List.length_replicate, List.drop_replicate, Nat.sub_self,
      List.drop_zero, List.nil_append] at hx
    exact hmem x (List.take_subset _ _ hx)

/-- Claim C2: for a genome whose rendering succeeds with a non-nil buffer
and a non-nil target, if the time-domain comparison yields the finite value
tv and the frequency-domain comparison yields the finite value fv, then the
fitness score equals 0.5 tv + 0.5 fv plus 1000 times the distance of the
expected duration attack + decay + release (sustain does not contribute)
outside the window from minSampleDuration to maxSampleDuration; inside the
window both distance terms are zero and no penalty is added. -/
theorem c2_theorem (render : Settings → Option Wave) (mag : List ℚ → List ℚ)
    (target : Wave) (sr : ℕ) (g : Settings) (w T : List ℚ) (tv fv : ℚ)
    (hr : render g = some (some w)) (htgt : target = some T)
    (ht : compareWaveforms (some w) (some T) = .fin tv)
    (hf : compareWaveformsFFT mag (some w) (some T) sr = .fin fv) :
    compareWaveformsSafe render mag target sr g =
      .fin (0.5 * tv + 0.5 * fv + 1000 *
        (max (minSampleDuration - (g.Attack + g.Decay + g.Release)) 0 +
         max (g.Attack + g.Decay + g.Release - maxSampleDuration) 0)) := by
  rw [compareWaveformsSafe_eq render mag target sr g w T tv fv hr htgt ht hf]
  congr 1
  have hwin : minSampleDuration < maxSampleDuration := by
    norm_num [minSampleDuration, maxSampleDuration]
  by_cases h1 : g.Attack + g.Decay + g.Release < minSampleDuration
  · by_cases h2 : g.Attack + g.Decay + g.Release > maxSampleDuration
    · exfalso
      linarith
    · rw [if_pos h1, if_neg h2, max_eq_left (by linarith),
        max_eq_right (by simp only [not_lt] at h2; linarith)]
      ring
  · by_cases h2 : g.Attack + g.Decay + g.Release > maxSampleDuration
    · rw [if_neg h1, if_pos h2, max_eq_right (by simp only [not_lt] at h1; linarith),
        max_eq_left (by linarith)]
      ring
    · rw [if_neg h1, if_neg h2, max_eq_right (by simp only [not_lt] at h1; linarith),
        max_eq_right (by simp only [not_lt] at h2; linarith)]
      ring

/-- Claim C2, witness: a concrete successful rendering with both comparisons
evaluating to 1 and a duration of 0, which lies below the window. -/
theorem c2_witness :
    compareWaveformsSafe (fun _ => some (some [1])) (fun _ => [0]) (some [1]) 44100
        defaultSettings =
      .fin (0.5 * 0 + 0.5 * 0 + 1000 *
        (max (minSampleDuration - (defaultSettings.Attack + defaultSettings.Decay +
          defaultSettings.Release)) 0 +
         max (defaultSettings.Attack + defaultSettings.Decay +
          defaultSettings.Release - maxSampleDuration) 0)) :=
  c2_theorem _ _ _ _ _ [1] [1] 0 0 rfl rfl
    (by
      rw [compareWaveforms_fin [1] [1] (by decide) (by decide)]
      simp [sumSqDiff])
    (by
      rw [compareWaveformsFFT_fin]
      simp [sumSqDiff])

/-- Claim C3, code behavior at the failing input: a run that reaches the
configured maximum number of generations without converging, stagnating or
being cancelled falls out of the loop carrying the best genome in the
result, but the trainingOngoing flag is still true afterwards (the run state
is never reset so that a new run could start) and the last status message is
the ordinary per-generation progress message of the final generation, not an
exhaustion reason.  Here: one genome, constant fitness 1, maxGenerations 1,
maxStagnation 2, no cancellation. -/
theorem c3_exhaustion :
    optimizeRun (fun _ => .fin 1) ⟨1, 1, 1, 1, 2⟩ (fun _ => false)
        (fun _ _ => trivPairDec) [defaultSettings] =
      ⟨.exhausted, defaultSettings, .fin 1, 1, true, .generationStatus 0⟩ := by
  decide

/-- Claim C4, code behavior at the failing input: starting a run while the
loaded target waveform is empty sets the trainingOngoing flag before the
check inside optimizeSettings rejects the run, and nothing resets the flag,
so the state after the rejected start differs from the state before it and
a subsequent start is not accepted (the handler returns the state
unchanged while the flag is set). -/
theorem c4_start_rejection :
    startTraining ⟨some [], false, .empty⟩ = ⟨some [], true, .errNoWav⟩ ∧
    startTraining ⟨some [], true, .errNoWav⟩ = ⟨some [], true, .errNoWav⟩ := by
  decide

/-- Claim C5, counterexample: with a successful rendering of a non-empty
buffer against an empty (non-nil) target, the time-domain comparison divides
zero by zero and the fitness evaluates to NaN, which is neither a
non-negative value nor positive infinity. -/
theorem c5_counterexample :
    validScore (compareWaveformsSafe (fun _ => some (some [1])) (fun l => l)
      (some []) 44100 defaultSettings) = false ∧
    compareWaveformsSafe (fun _ => some (some [1])) (fun l => l)
      (some []) 44100 defaultSettings = .nan := by
  have h1 : compareWaveforms (some [1]) (some ([] : List ℚ)) = .nan := by
    simp [compareWaveforms, fdivNN, sumSqDiff]
  have h2 : compareWaveformsSafe (fun _ => some (some [1])) (fun l => l)
      (some []) 44100 defaultSettings = .nan := by
    unfold compareWaveformsSafe
    simp only [h1, EF.scale, EF.add]
    split_ifs <;> rfl
  exact ⟨by rw [h2]; rfl, h2⟩

/-- Claim C5, amended: the fitness evaluation returns positive infinity when
rendering fails, and a non-negative finite value whenever rendering succeeds
with a non-nil non-empty buffer and the target is non-nil and non-empty; the
original claim fails only on the empty-buffer edge cases (where the result
is NaN) and on nil buffers (where the result is positive infinity even
though evaluation succeeded). -/
theorem c5_theorem :
    (∀ (render : Settings → Option Wave) (mag : List ℚ → List ℚ) (target : Wave)
        (sr : ℕ) (g : Settings), render g = none →
        compareWaveformsSafe render mag target sr g = .inf) ∧
    (∀ (render : Settings → Option Wave) (mag : List ℚ → List ℚ)
        (target : List ℚ) (sr : ℕ) (g : Settings) (w : List ℚ),
        render g = some (some w) → w ≠ [] → target ≠ [] →
        validScore (compareWaveformsSafe render mag (some target) sr g) = true) := by
  constructor
  · intro render mag target sr g h
    unfold compareWaveformsSafe
    rw [h]
  · intro render mag target sr g w hr hw htv
    have ht := compareWaveforms_fin w target hw htv
    have hf := compareWaveformsFFT_fin mag w target sr
    rw [compareWaveformsSafe_eq render mag (some target) sr g w target _ _ hr rfl ht hf]
    simp only [validScore]
    rw [decide_eq_true_eq]
    exact score_formula_nonneg g _ _
      (div_nonneg (sumSqDiff_nonneg _ _ _) (Nat.cast_nonneg _))
      (div_nonneg (sumSqDiff_nonneg _ _ _) (Nat.cast_nonneg _))

/-- Claim C5, witness: a failing rendering scores positive infinity, and a
successful rendering of non-empty buffers scores a valid value. -/
theorem c5_witness :
    compareWaveformsSafe (fun _ => none) (fun l => l) none 44100 defaultSettings
      = .inf ∧
    validScore (compareWaveformsSafe (fun _ => some (some [1])) (fun l => l)
      (some [2]) 44100 defaultSettings) = true :=
  ⟨c5_theorem.1 _ _ _ _ _ rfl,
   c5_theorem.2 _ _ _ _ _ _ rfl (by decide) (by decide)⟩

/-- Claim C6: when rendering fails the fitness evaluator returns positive
infinity, and across any number of generations of the loop the recorded
global best fitness is either still the initial one or a finite value: a
genome scored positive infinity (or NaN) is never selected as the global
best, because the update requires a strict IEEE comparison win, and
per-genome failures never abort the generation (the loop maps the evaluator
over the whole population and continues). -/
theorem c6_theorem :
    (∀ (render : Settings → Option Wave) (mag : List ℚ → List ℚ) (target : Wave)
        (sr : ℕ) (g : Settings), render g = none →
        compareWaveformsSafe render mag target sr g = .inf) ∧
    (∀ (fit : Settings → EF) (cfg : Config) (cancel : ℕ → Bool)
        (dec : ℕ → ℕ → PairDec) (fuel generation : ℕ) (st : LoopState),
        (optimizeLoop fit cfg cancel dec fuel generation st).bestFit =
          st.bestFitness ∨
        ∃ q, (optimizeLoop fit cfg cancel dec fuel generation st).bestFit =
          .fin q) := by
  constructor
  · intro render mag target sr g h
    unfold compareWaveformsSafe
    rw [h]
  · intro fit cfg cancel dec fuel generation st
    exact optimizeLoop_bestFit fit cfg cancel dec fuel generation st

/-- Claim C6, witness: a failing rendering at a concrete genome, and a
concrete loop whose population only ever scores positive infinity, where the
best fitness stays the initial one. -/
theorem c6_witness :
    compareWaveformsSafe (fun _ => none) (fun l => l) (some [1]) 44100 gB = .inf ∧
    ((optimizeLoop (fun _ => .inf) ⟨1, 1, 1, 1, 2⟩ (fun _ => false)
        (fun _ _ => trivPairDec) 0 0 ⟨[gB], gB, .inf, 0, .empty⟩).bestFit =
      (⟨[gB], gB, .inf, 0, .empty⟩ : LoopState).bestFitness ∨
     ∃ q, (optimizeLoop (fun _ => .inf) ⟨1, 1, 1, 1, 2⟩ (fun _ => false)
        (fun _ _ => trivPairDec) 0 0 ⟨[gB], gB, .inf, 0, .empty⟩).bestFit =
      .fin q) :=
  ⟨c6_theorem.1 _ _ _ _ _ rfl,
   c6_theorem.2 (fun _ => .inf) ⟨1, 1, 1, 1, 2⟩ (fun _ => false)
     (fun _ _ => trivPairDec) 0 0 ⟨[gB], gB, .inf, 0, .empty⟩⟩

/-- Claim C7: for every configured stagnation limit L at least 1, if
generation 0 finds an improvement over the initial global best (the genome
at index 0), the improved fitness is not below the convergence threshold,
and no genome ever scores strictly below that improved fitness afterwards,
then with no cancellation and maxGenerations greater than L the run stops
in the Stagnant state exactly at generation L — not L - 1, not L + 1 —
reporting the generation-0 best genome and its fitness: the stagnation
counter rises by one in each generation without improvement, is 0 after the
generation-0 improvement, and the run stops exactly when it reaches L. -/
theorem c7_theorem (fit : Settings → EF) (cfg : Config) (cancel : ℕ → Bool)
    (dec : ℕ → ℕ → PairDec) (population : List Settings) (i0 : ℕ)
    (hcancel : ∀ j, cancel j = false)
    (hfb : (findBest (population.map fit)).2 = some i0)
    (himp : ((population.map fit).getD i0 .inf).flt
      (fit (population.getD 0 defaultSettings)) = true)
    (hnc : ((population.map fit).getD i0 .inf).flt (.fin 0.001) = false)
    (hni : ∀ g : Settings,
      EF.flt (fit g) ((population.map fit).getD i0 .inf) = false)
    (hL : 1 ≤ cfg.maxStagnation)
    (hM : cfg.maxStagnation + 1 ≤ cfg.maxGenerations) :
    optimizeRun fit cfg cancel dec population =
      ⟨.stagnant, population.getD i0 defaultSettings,
        (population.map fit).getD i0 .inf, cfg.maxStagnation, false,
        .stagnation⟩ := by
  unfold optimizeRun
  obtain ⟨M, hMeq⟩ : ∃ M, cfg.maxGenerations = M + 1 :=
    ⟨cfg.maxGenerations - 1, by omega⟩
  rw [hMeq]
  rw [step_improve fit cfg cancel dec M 0 _ i0 (hcancel 0) hfb himp hnc]
  rw [stagnation_phase fit cfg cancel dec _ _ hcancel hni cfg.maxStagnation hL 0
    (by omega) M (by omega) 1 _ _]
  have harith : 1 + cfg.maxStagnation - 1 = cfg.maxStagnation := by omega
  rw [harith]

/-- Claim C7, witness: two genomes with fitness 2 and 1, stagnation limit 2,
four generations available; generation 0 improves the global best to the
second genome, nothing improves afterwards, and the run reports Stagnant
exactly at generation 2 with that genome. -/
theorem c7_witness :
    optimizeRun (fun g => if g = gB then EF.fin 1 else EF.fin 2) ⟨2, 1, 1, 4, 2⟩
        (fun _ => false) (fun _ _ => trivPairDec) [defaultSettings, gB] =
      ⟨.stagnant, gB, .fin 1, 2, false, .stagnation⟩ :=
  c7_theorem (fun g => if g = gB then EF.fin 1 else EF.fin 2) ⟨2, 1, 1, 4, 2⟩
    (fun _ => false) (fun _ _ => trivPairDec) [defaultSettings, gB] 1
    (fun _ => rfl) (by decide) (by decide)
    (by
      have e1 : (([defaultSettings, gB].map
          (fun g => if g = gB then EF.fin 1 else EF.fin 2)).getD 1 .inf) =
          EF.fin 1 := by simp
      rw [e1]
      simp only [EF.flt, decide_eq_false_iff_not, not_lt]
      norm_num [minSampleDuration])
    (by
      intro g
      by_cases h : g = gB <;> simp [h, EF.flt])
    (by decide) (by decide)

/-- Claim C8: whenever the cancellation signal is pending at the single
per-generation boundary check (the first statement of the loop body), the
run returns the Cancelled outcome at once: the generation performs no
fitness evaluation and builds no population, the best genome and fitness
accumulated so far are preserved in the reported result, the flag is
cleared and the cancellation message is written.  A request issued during
generation k is first seen at the boundary of generation k + 1, so no
generation after k executes and the best as of generation k is reported. -/
theorem c8_theorem (fit : Settings → EF) (cfg : Config) (cancel : ℕ → Bool)
    (dec : ℕ → ℕ → PairDec) (fuel generation : ℕ) (st : LoopState)
    (hc : cancel generation = true) :
    optimizeLoop fit cfg cancel dec (fuel + 1) generation st =
      ⟨.cancelled, st.bestSettings, st.bestFitness, generation, false,
        .canceled⟩ :=
  step_cancel fit cfg cancel dec fuel generation st hc

/-- Claim C8, witness: a cancellation pending at generation 3 stops a
concrete loop immediately with the accumulated best preserved. -/
theorem c8_witness :
    optimizeLoop (fun _ => .fin 1) ⟨1, 1, 1, 5, 2⟩ (fun j => decide (j = 3))
        (fun _ _ => trivPairDec) 2 3 ⟨[gB], gB, .fin 1, 0, .empty⟩ =
      ⟨.cancelled, gB, .fin 1, 3, false, .canceled⟩ :=
  c8_theorem (fun _ => .fin 1) ⟨1, 1, 1, 5, 2⟩ (fun j => decide (j = 3))
    (fun _ _ => trivPairDec) 1 3 ⟨[gB], gB, .fin 1, 0, .empty⟩ (by decide)

/-- Claim C9: mutation of a genome whose continuous genes lie within their
declared bounds yields a genome whose continuous genes lie within their
bounds (out-of-bound products are brought back by clamping, and the genome
is always returned, never rejected), and both children of a crossover of two
in-bounds parents are in bounds, for every outcome of the random draws. -/
theorem c9_theorem :
    (∀ (dec : MutDec) (cfg : Settings) (allWaveforms : Bool),
        InBounds cfg → InBounds (mutateSettings dec cfg allWaveforms)) ∧
    (∀ (coins : ℕ → ℚ) (p1 p2 : Settings), InBounds p1 → InBounds p2 →
        InBounds (singlePointCrossover coins p1 p2).1 ∧
        InBounds (singlePointCrossover coins p1 p2).2) := by
  constructor
  · intro dec cfg aw h
    obtain ⟨hA, hD, hS, hR, hDr, hF, hSw, hP, hN⟩ := h
    refine ⟨?_, ?_, ?_, ?_, ?_, ?_, ?_, ?_, ?_⟩
    · rw [mutate_Attack]
      split_ifs
      · exact clamp_mem _ _ _ (by norm_num [minAttack, maxAttack])
      · exact hA
    · rw [mutate_Decay]
      split_ifs
      · exact clamp_mem _ _ _ (by norm_num [minDecay, maxDecay])
      · exact hD
    · rw [mutate_Sustain]
      split_ifs
      · exact clamp_mem _ _ _ (by norm_num [minSustain, maxSustain])
      · exact hS
    · rw [mutate_Release]
      split_ifs
      · exact clamp_mem _ _ _ (by norm_num [minRelease, maxRelease])
      · exact hR
    · rw [mutate_Drive]
      split_ifs
      · exact clamp_mem _ _ _ (by norm_num [minDrive, maxDrive])
      · exact hDr
    · rw [mutate_FilterCutoff]
      split_ifs
      · exact clamp_mem _ _ _ (by norm_num [minFilterCutoff, maxFilterCutoff])
      · exact hF
    · rw [mutate_Sweep]
      split_ifs
      · exact clamp_mem _ _ _ (by norm_num [minSweep, maxSweep])
      · exact hSw
    · rw [mutate_PitchDecay]
      split_ifs
      · exact clamp_mem _ _ _ (by norm_num [minPitchDecay, maxPitchDecay])
      · exact hP
    · rw [mutate_NoiseAmount]
      split_ifs
      · exact clamp_mem _ _ _ (by norm_num [minNoiseAmount, maxNoiseAmount])
      · exact hN
  · intro coins p1 p2 h1 h2
    obtain ⟨hA1, hD1, hS1, hR1, hDr1, hF1, hSw1, hP1, hN1⟩ := h1
    obtain ⟨hA2, hD2, hS2, hR2, hDr2, hF2, hSw2, hP2, hN2⟩ := h2
    constructor
    · refine ⟨?_, ?_, ?_, ?_, ?_, ?_, ?_, ?_, ?_⟩
      · rw [crossFst_Attack]; split_ifs <;> assumption
      · rw [crossFst_Decay]; split_ifs <;> assumption
      · rw [crossFst_Sustain]; split_ifs <;> assumption
      · rw [crossFst_Release]; split_ifs <;> assumption
      · rw [crossFst_Drive]; split_ifs <;> assumption
      · rw [crossFst_FilterCutoff]; split_ifs <;> assumption
      · rw [crossFst_Sweep]; split_ifs <;> assumption
      · rw [crossFst_PitchDecay]; split_ifs <;> assumption
      · rw [crossFst_NoiseAmount]; split_ifs <;> assumption
    · refine ⟨?_, ?_, ?_, ?_, ?_, ?_, ?_, ?_, ?_⟩
      · rw [crossSnd_Attack]; split_ifs <;> assumption
      · rw [crossSnd_Decay]; split_ifs <;> assumption
      · rw [crossSnd_Sustain]; split_ifs <;> assumption
      · rw [crossSnd_Release]; split_ifs <;> assumption
      · rw [crossSnd_Drive]; split_ifs <;> assumption
      · rw [crossSnd_FilterCutoff]; split_ifs <;> assumption
      · rw [crossSnd_Sweep]; split_ifs <;> assumption
      · rw [crossSnd_PitchDecay]; split_ifs <;> assumption
      · rw [crossSnd_NoiseAmount]; split_ifs <;> assumption

/-- Claim C9, witness: a concrete in-bounds genome stays in bounds under
mutation and under both sides of crossover. -/
theorem c9_witness :
    InBounds gBounds ∧ InBounds (mutateSettings trivMutDec gBounds false) ∧
    InBounds (singlePointCrossover (fun _ => 1) gBounds gBounds).1 ∧
    InBounds (singlePointCrossover (fun _ => 1) gBounds gBounds).2 :=
  ⟨gBounds_in, c9_theorem.1 trivMutDec gBounds false gBounds_in,
   (c9_theorem.2 (fun _ => 1) gBounds gBounds gBounds_in gBounds_in).1,
   (c9_theorem.2 (fun _ => 1) gBounds gBounds gBounds_in gBounds_in).2⟩

/-- Claim C10: for every pair of parents and every outcome of the crossover
coin draws, each of the ten genes of the two children is the corresponding
pair of parent gene values in one of the two orders: either child 1 keeps
the gene of parent 1 and child 2 that of parent 2, or the two are swapped,
so crossover never creates a gene value that did not occur in a parent. -/
theorem c10_theorem (coins : ℕ → ℚ) (parent1 parent2 : Settings) :
    genePair (singlePointCrossover coins parent1 parent2).1.Attack
      (singlePointCrossover coins parent1 parent2).2.Attack
      parent1.Attack parent2.Attack ∧
    genePair (singlePointCrossover coins parent1 parent2).1.Decay
      (singlePointCrossover coins parent1 parent2).2.Decay
      parent1.Decay parent2.Decay ∧
    genePair (singlePointCrossover coins parent1 parent2).1.Sustain
      (singlePointCrossover coins parent1 parent2).2.Sustain
      parent1.Sustain parent2.Sustain ∧
    genePair (singlePointCrossover coins parent1 parent2).1.Release
      (singlePointCrossover coins parent1 parent2).2.Release
      parent1.Release parent2.Release ∧
    genePair (singlePointCrossover coins parent1 parent2).1.Drive
      (singlePointCrossover coins parent1 parent2).2.Drive
      parent1.Drive parent2.Drive ∧
    genePair (singlePointCrossover coins parent1 parent2).1.FilterCutoff
      (singlePointCrossover coins parent1 parent2).2.FilterCutoff
      parent1.FilterCutoff parent2.FilterCutoff ∧
    genePair (singlePointCrossover coins parent1 parent2).1.Sweep
      (singlePointCrossover coins parent1 parent2).2.Sweep
      parent1.Sweep parent2.Sweep ∧
    genePair (singlePointCrossover coins parent1 parent2).1.PitchDecay
      (singlePointCrossover coins parent1 parent2).2.PitchDecay
      parent1.PitchDecay parent2.PitchDecay ∧
    genePair (singlePointCrossover coins parent1 parent2).1.WaveformType
      (singlePointCrossover coins parent1 parent2).2.WaveformType
      parent1.WaveformType parent2.WaveformType ∧
    genePair (singlePointCrossover coins parent1 parent2).1.NoiseAmount
      (singlePointCrossover coins parent1 parent2).2.NoiseAmount
      parent1.NoiseAmount parent2.NoiseAmount := by
  refine ⟨?_, ?_, ?_, ?_, ?_, ?_, ?_, ?_, ?_, ?_⟩
  · rw [crossFst_Attack, crossSnd_Attack]
    split_ifs <;> simp [genePair]
  · rw [crossFst_Decay, crossSnd_Decay]
    split_ifs <;> simp [genePair]
  · rw [crossFst_Sustain, crossSnd_Sustain]
    split_ifs <;> simp [genePair]
  · rw [crossFst_Release, crossSnd_Release]
    split_ifs <;> simp [genePair]
  · rw [crossFst_Drive, crossSnd_Drive]
    split_ifs <;> simp [genePair]
  · rw [crossFst_FilterCutoff, crossSnd_FilterCutoff]
    split_ifs <;> simp [genePair]
  · rw [crossFst_Sweep, crossSnd_Sweep]
    split_ifs <;> simp [genePair]
  · rw [crossFst_PitchDecay, crossSnd_PitchDecay]
    split_ifs <;> simp [genePair]
  · rw [crossFst_WaveformType, crossSnd_WaveformType]
    split_ifs <;> simp [genePair]
  · rw [crossFst_NoiseAmount, crossSnd_NoiseAmount]
    split_ifs <;> simp [genePair]

end Kickpad
